import Mathlib

/-!
Verification development for the AIR3 Twitch bot repository.

The definitions below are a shallow embedding of the repository's
TypeScript sources:

  * `TokenStoreService` (file `tokenStoreService.ts`): a bounded,
    deduplicated FIFO store of contract-address strings with a
    round-robin read cursor (`contractAddresses` array plus
    `currentIndex`), loaded best-effort from a persisted JSON snapshot.
  * `TwitchClient` (file `twitchAuth.ts`): OAuth credential lifecycle —
    `refreshToken`, `validateToken`, `persistTokens`, `sendMessage`.
    Network calls are modelled by oracle values describing each fetch
    outcome; persistence writes are counted, and `threw` records whether
    the call propagated an exception.
  * `index.ts`: the startup interval-bound check and one cycle of
    `questionLoop` (source alternation, fallback, render, send,
    unconditional reschedule via `finally`).

Mutation of `this` is modelled by explicit state passing; JavaScript
string truthiness (empty string is falsy) is modelled where the source
relies on it.
-/

namespace AIR3

/-! ## TokenStoreService (tokenStoreService.ts) -/

/-- `MAX_STORE_SIZE` constant from tokenStoreService.ts. -/
def MAX_STORE_SIZE : Nat := 200

/-- `MIN_STORE_THRESHOLD` constant from tokenStoreService.ts. -/
def MIN_STORE_THRESHOLD : Nat := 10

/-- The mutable fields of `TokenStoreService`: the `contractAddresses`
array and the round-robin `currentIndex` cursor. -/
structure TokenStore where
  contractAddresses : List String
  currentIndex : Nat
deriving DecidableEq, Repr

/-- One iteration of the loop body of
`TokenStoreService.addContractAddresses`: skip a duplicate; otherwise
`shift()` (drop the head) when the store is at or above the capacity
`maxStore`, then `push` the new address.  The source fixes the capacity
to `MAX_STORE_SIZE = 200`; the capacity is a parameter here so that the
same algorithm can also be examined at the spec's example capacity 3. -/
def addOne (maxStore : Nat) (addrs : List String) (addr : String) : List String :=
  if addr ∈ addrs then addrs
  else if maxStore ≤ addrs.length then addrs.tail ++ [addr]
  else addrs ++ [addr]

/-- `TokenStoreService.addContractAddresses`, generalized over the
capacity: fold the per-address loop body over the input batch.
(The source's persistence write after a successful batch is an external
side effect and is not part of the list state.) -/
def addContractAddressesCap (maxStore : Nat) (addrs newAddresses : List String) : List String :=
  newAddresses.foldl (addOne maxStore) addrs

/-- `TokenStoreService.addContractAddresses` at the source's capacity. -/
def addContractAddresses (addrs newAddresses : List String) : List String :=
  addContractAddressesCap MAX_STORE_SIZE addrs newAddresses

/-- `TokenStoreService.getNextContractAddress`: `null` on an empty
store; otherwise clamp `currentIndex` to `0` when it is past the end,
read the element at the (clamped) cursor, and advance the cursor.
Indexing is modelled with `List.getElem?` so that an out-of-range read
would surface as `none` (JavaScript `undefined`). -/
def getNextContractAddress (s : TokenStore) : Option String × TokenStore :=
  if s.contractAddresses.length = 0 then (none, s)
  else
    let i := if s.contractAddresses.length ≤ s.currentIndex then 0 else s.currentIndex
    (s.contractAddresses[i]?, { s with currentIndex := i + 1 })

/-- `n` consecutive `getNextContractAddress` calls, collecting the
returned values and threading the store state. -/
def runNext : Nat → TokenStore → List (Option String) × TokenStore
  | 0, s => ([], s)
  | n + 1, s =>
    let r := getNextContractAddress s
    let rest := runNext n r.2
    (r.1 :: rest.1, rest.2)

/-- `TokenStoreService.loadPersistedAddresses`, success path: the file
parsed to an array of strings, which is truncated with
`slice(0, MAX_STORE_SIZE)` and installed as the store contents.  A
`none` argument models a missing/unreadable/ill-typed file (store left
unchanged). -/
def loadPersistedAddresses (parsed : Option (List String)) (current : List String) : List String :=
  match parsed with
  | some l => l.take MAX_STORE_SIZE
  | none => current

/-- States of a `TokenStoreService` reachable by any interleaving of the
construction-time (asynchronous, fire-and-forget) snapshot load,
`addContractAddresses` batches, and `getNextContractAddress` reads.
`P` constrains which persisted snapshots are possible. -/
inductive Reachable (P : List String → Prop) : TokenStore → Prop where
  | init : Reachable P ⟨[], 0⟩
  | load : ∀ (l : List String) (s : TokenStore), P l → Reachable P s →
      Reachable P ⟨loadPersistedAddresses (some l) s.contractAddresses, s.currentIndex⟩
  | add : ∀ (s : TokenStore) (newAddresses : List String), Reachable P s →
      Reachable P ⟨addContractAddresses s.contractAddresses newAddresses, s.currentIndex⟩
  | next : ∀ (s : TokenStore), Reachable P s → Reachable P (getNextContractAddress s).2

/-! ### Store lemmas -/

theorem addOne_length_le (maxStore : Nat) (hpos : 0 < maxStore)
    (addrs : List String) (addr : String) (h : addrs.length ≤ maxStore) :
    (addOne maxStore addrs addr).length ≤ maxStore := by
  unfold addOne
  by_cases hmem : addr ∈ addrs
  · simpa [hmem] using h
  · by_cases hfull : maxStore ≤ addrs.length
    · have hlen : addrs.length = maxStore := le_antisymm h hfull
      have hne : addrs ≠ [] := by
        intro hnil
        rw [hnil] at hlen
        simp at hlen
        omega
      simp [hmem, hfull, List.length_tail]
      omega
    · simp [hmem, hfull]
      omega

theorem addOne_nodup (maxStore : Nat) (addrs : List String) (addr : String)
    (h : addrs.Nodup) : (addOne maxStore addrs addr).Nodup := by
  unfold addOne
  by_cases hmem : addr ∈ addrs
  · simpa [hmem]
  · by_cases hfull : maxStore ≤ addrs.length
    · have htail : addrs.tail.Nodup := (List.tail_sublist addrs).nodup h
      have hnm : addr ∉ addrs.tail := fun hc => hmem (List.mem_of_mem_tail hc)
      simp [hmem, hfull, List.nodup_append, htail]
      exact hnm
    · simp [hmem, hfull, List.nodup_append, h]

theorem addContractAddressesCap_length_le (maxStore : Nat) (hpos : 0 < maxStore)
    (newAddresses addrs : List String) (h : addrs.length ≤ maxStore) :
    (addContractAddressesCap maxStore addrs newAddresses).length ≤ maxStore := by
  induction newAddresses generalizing addrs with
  | nil => simpa [addContractAddressesCap]
  | cons a rest ih =>
    exact ih (addOne maxStore addrs a) (addOne_length_le maxStore hpos addrs a h)

theorem addContractAddressesCap_nodup (maxStore : Nat)
    (newAddresses addrs : List String) (h : addrs.Nodup) :
    (addContractAddressesCap maxStore addrs newAddresses).Nodup := by
  induction newAddresses generalizing addrs with
  | nil => simpa [addContractAddressesCap]
  | cons a rest ih =>
    exact ih (addOne maxStore addrs a) (addOne_nodup maxStore addrs a h)

theorem getNextContractAddress_addrs (s : TokenStore) :
    ((getNextContractAddress s).2).contractAddresses = s.contractAddresses := by
  unfold getNextContractAddress
  split <;> rfl

/-- With the cursor in range, `n` reads (staying within the array)
return the `n`-element segment starting at the cursor and leave the
cursor advanced by `n`. -/
theorem runNext_seg (n : Nat) : ∀ (l : List String) (c : Nat), c + n ≤ l.length →
    runNext n ⟨l, c⟩ = (((l.drop c).take n).map some, ⟨l, c + n⟩) := by
  induction n with
  | zero => intro l c h; simp [runNext]
  | succ n ih =>
    intro l c h
    have hc : c < l.length := by omega
    have hstep : getNextContractAddress ⟨l, c⟩ = (l[c]?, ⟨l, c + 1⟩) := by
      unfold getNextContractAddress
      have h0 : ¬ l.length = 0 := by omega
      have h1 : ¬ l.length ≤ c := by omega
      simp [h0, h1]
    have hrest := ih l (c + 1) (by omega)
    rw [runNext, hstep, hrest]
    simp [List.getElem?_eq_getElem hc]
    constructor
    · have hc2 : c < (l.map some).length := by simpa using hc
      rw [List.drop_eq_getElem_cons hc2, List.take_succ_cons]
      simp
    · omega

/-- When the cursor is past the end of a non-empty store, a read behaves
exactly as with the cursor at zero (the clamp). -/
theorem runNext_clamp (n : Nat) (l : List String) (c : Nat)
    (hne : l ≠ []) (hc : l.length ≤ c) :
    runNext (n + 1) ⟨l, c⟩ = runNext (n + 1) ⟨l, 0⟩ := by
  have h0 : ¬ l.length = 0 := by
    intro h
    exact hne (List.length_eq_zero.mp h)
  have hstep : getNextContractAddress ⟨l, c⟩ = (l[0]?, ⟨l, 1⟩) := by
    unfold getNextContractAddress
    simp [h0, hc]
  have hstep0 : getNextContractAddress ⟨l, 0⟩ = (l[0]?, ⟨l, 1⟩) := by
    unfold getNextContractAddress
    have h1 : ¬ l.length ≤ 0 := by omega
    simp [h0, h1]
  rw [runNext, hstep, runNext, hstep0]

/-- Running `m + n` reads is running `m` reads and then `n` reads. -/
theorem runNext_add (m n : Nat) : ∀ s : TokenStore,
    runNext (m + n) s =
      ((runNext m s).1 ++ (runNext n (runNext m s).2).1,
        (runNext n (runNext m s).2).2) := by
  induction m with
  | zero => intro s; simp [runNext]
  | succ m ih =>
    intro s
    have : m + 1 + n = (m + n) + 1 := by omega
    rw [this, runNext, runNext, ih]
    simp

/-- A full pass of `getNextContractAddress` over a non-empty store
returns exactly the rotation of the stored list by the (clamped)
starting cursor. -/
theorem runNext_full_rotate (l : List String) (c : Nat) (hne : l ≠ []) (hc : c < l.length) :
    (runNext l.length ⟨l, c⟩).1 = (l.rotate c).map some := by
  have hsplit : l.length = (l.length - c) + c := by omega
  rw [hsplit, runNext_add]
  have hfirst := runNext_seg (l.length - c) l c (by omega)
  have hd : (l.drop c).take (l.length - c) = l.drop c := by
    apply List.take_of_length_le
    simp
  rw [hfirst]
  simp only [hd]
  have hc0 : c + (l.length - c) = l.length := by omega
  have hsecond : (runNext c ⟨l, c + (l.length - c)⟩).1 = (l.take c).map some := by
    rw [hc0]
    cases c with
    | zero => simp [runNext]
    | succ c' =>
      rw [runNext_clamp c' l l.length hne (le_refl _)]
      have := runNext_seg (c' + 1) l 0 (by omega)
      rw [this]
      simp
  rw [hsecond]
  rw [List.rotate_eq_drop_append_take (by omega)]
  simp

/-- A full pass over a non-empty store is a permutation of the stored
list, for an arbitrary starting cursor (in range or past the end). -/
theorem runNext_full_perm (l : List String) (c : Nat) (hne : l ≠ []) :
    ((runNext l.length ⟨l, c⟩).1).Perm (l.map some) := by
  by_cases hc : c < l.length
  · rw [runNext_full_rotate l c hne hc]
    exact (List.rotate_perm l c).map some
  · have hcl : l.length ≤ c := by omega
    obtain ⟨n, hn⟩ : ∃ n, l.length = n + 1 := by
      cases l with
      | nil => exact absurd rfl hne
      | cons a t => exact ⟨t.length, rfl⟩
    have hrot := runNext_full_rotate l 0 hne (by omega)
    rw [hn] at hrot ⊢
    rw [runNext_clamp n l c hne hcl, hrot]
    simp

/-! ### Claim theorems for the store -/

/-- Claim C3 counterexample: the claim quantifies over states reached by
any interleaving that includes the construction-time load of a persisted
snapshot, but `loadPersistedAddresses` only truncates the parsed array
(`slice(0, MAX_STORE_SIZE)`) and does not deduplicate it, so loading the
well-typed snapshot `["A", "A"]` yields a reachable store whose entries
are not duplicate-free. -/
theorem claim_C3_counterexample :
    Reachable (fun _ => True) ⟨["A", "A"], 0⟩ ∧ ¬ (["A", "A"] : List String).Nodup := by
  constructor
  · have h : Reachable (fun _ => True) ⟨loadPersistedAddresses (some ["A", "A"]) [], 0⟩ :=
      Reachable.load ["A", "A"] ⟨[], 0⟩ trivial Reachable.init
    have he : loadPersistedAddresses (some ["A", "A"]) [] = ["A", "A"] := by decide
    rw [he] at h
    exact h
  · decide

/-- Claim C3 (amended): in every reachable state of the store the size
never exceeds `MAX_STORE_SIZE = 200` (unconditionally), and the entries
contain no duplicates provided every snapshot that was loaded was itself
duplicate-free — the load path truncates but does not deduplicate, so
duplicates can only originate from a duplicated snapshot. -/
theorem claim_C3_storeInvariants (P : List String → Prop) (s : TokenStore)
    (h : Reachable P s) :
    s.contractAddresses.length ≤ MAX_STORE_SIZE ∧
    ((∀ l, P l → l.Nodup) → s.contractAddresses.Nodup) := by
  induction h with
  | init => simp [MAX_STORE_SIZE]
  | load l s hP hs ih =>
    constructor
    · exact List.length_take_le _ _
    · intro hnod
      exact (List.take_sublist _ _).nodup (hnod l hP)
  | add s newAddresses hs ih =>
    constructor
    · exact addContractAddressesCap_length_le MAX_STORE_SIZE (by decide) newAddresses _ ih.1
    · intro hnod
      exact addContractAddressesCap_nodup MAX_STORE_SIZE newAddresses _ (ih.2 hnod)
  | next s hs ih =>
    simpa [getNextContractAddress_addrs] using ih

/-- Claim C3 witness: a concrete reachable state (one address added to
the freshly constructed store) at which the amended invariant is
evaluated. -/
theorem claim_C3_witness :
    Reachable List.Nodup (TokenStore.mk ["A"] 0) ∧
    ((TokenStore.mk ["A"] 0).contractAddresses.length ≤ MAX_STORE_SIZE ∧
      ((∀ l : List String, List.Nodup l → l.Nodup) →
        (TokenStore.mk ["A"] 0).contractAddresses.Nodup)) := by
  have h : Reachable List.Nodup ⟨addContractAddresses [] ["A"], 0⟩ :=
    Reachable.add ⟨[], 0⟩ ["A"] Reachable.init
  have he : addContractAddresses [] ["A"] = ["A"] := by decide
  rw [he] at h
  exact ⟨h, claim_C3_storeInvariants List.Nodup ⟨["A"], 0⟩ h⟩

/-- Claim C4: on an empty store `getNextContractAddress` returns `null`
and leaves the state unchanged; on a non-empty store of `N` addresses,
`N` consecutive calls (with no interleaved additions or evictions)
return every stored address exactly once (the results are a permutation
of the stored list), and each call advances the cursor by one after
clamping it to zero when it is past the end. -/
theorem claim_C4_roundRobinPass (s : TokenStore) :
    (s.contractAddresses = [] → getNextContractAddress s = (none, s)) ∧
    (s.contractAddresses ≠ [] →
      ((runNext s.contractAddresses.length s).1).Perm (s.contractAddresses.map some)) ∧
    (s.contractAddresses ≠ [] →
      ((getNextContractAddress s).2).currentIndex =
        (if s.contractAddresses.length ≤ s.currentIndex then 0 else s.currentIndex) + 1) := by
  obtain ⟨l, c⟩ := s
  refine ⟨?_, ?_, ?_⟩
  · intro h
    have hl : l = [] := h
    subst hl
    simp [getNextContractAddress]
  · intro h
    exact runNext_full_perm l c h
  · intro h
    have h0 : ¬ l.length = 0 := fun hh => h (List.length_eq_zero.mp hh)
    unfold getNextContractAddress
    simp [h0]

/-- Claim C4 witness: store `["B", "C", "D"]` with the cursor at 1;
three calls return `C, D, B`, a permutation of the store. -/
theorem claim_C4_witness :
    (TokenStore.mk ["B", "C", "D"] 1).contractAddresses ≠ [] ∧
    ((runNext 3 (TokenStore.mk ["B", "C", "D"] 1)).1).Perm
      (["B", "C", "D"].map some) := by
  have h := (claim_C4_roundRobinPass ⟨["B", "C", "D"], 1⟩).2.1 (by decide)
  exact ⟨by decide, h⟩

/-- Claim C5: at capacity, adding a fresh address drops exactly the head
of the list — the earliest-added surviving entry (strict FIFO) — and
appends the new address; and at the spec's example capacity 3, adding
`A, B, C, D` in order to an empty store leaves exactly `[B, C, D]`. -/
theorem claim_C5_fifoEviction :
    (∀ (addrs : List String) (a : String),
        addrs.length = MAX_STORE_SIZE → a ∉ addrs →
        addContractAddresses addrs [a] = addrs.tail ++ [a]) ∧
    addContractAddressesCap 3 [] ["A", "B", "C", "D"] = ["B", "C", "D"] := by
  constructor
  · intro addrs a hlen hmem
    show addOne MAX_STORE_SIZE addrs a = addrs.tail ++ [a]
    unfold addOne
    simp [hmem, hlen]
  · decide

/-- Claim C5 witness: a concrete store of 200 entries at capacity, to
which a fresh address is added. -/
theorem claim_C5_witness :
    (List.replicate MAX_STORE_SIZE "B").length = MAX_STORE_SIZE ∧
    "A" ∉ List.replicate MAX_STORE_SIZE "B" ∧
    addContractAddresses (List.replicate MAX_STORE_SIZE "B") ["A"] =
      (List.replicate MAX_STORE_SIZE "B").tail ++ ["A"] := by
  refine ⟨List.length_replicate _ _, by simp, ?_⟩
  exact claim_C5_fifoEviction.1 (List.replicate MAX_STORE_SIZE "B") "A"
    (List.length_replicate _ _) (by simp)

/-- Claim C10: whenever the store is non-empty, `getNextContractAddress`
returns `some` element that is actually present in the store — the
cursor is clamped into range before indexing, so the read never yields
an out-of-range (`undefined`) value. -/
theorem claim_C10_readInRange (s : TokenStore) (h : s.contractAddresses ≠ []) :
    ∃ x, (getNextContractAddress s).1 = some x ∧ x ∈ s.contractAddresses := by
  obtain ⟨l, c⟩ := s
  have h0 : ¬ l.length = 0 := fun hh => h (List.length_eq_zero.mp hh)
  have hilt : (if l.length ≤ c then 0 else c) < l.length := by
    split <;> omega
  refine ⟨l[if l.length ≤ c then 0 else c], ?_, List.getElem_mem hilt⟩
  unfold getNextContractAddress
  simp [h0, List.getElem?_eq_getElem hilt]

/-- Claim C10 witness: a singleton store read with the cursor far past
the end still returns the stored element. -/
theorem claim_C10_witness :
    (TokenStore.mk ["A"] 5).contractAddresses ≠ [] ∧
    ∃ x, (getNextContractAddress (TokenStore.mk ["A"] 5)).1 = some x ∧
      x ∈ (TokenStore.mk ["A"] 5).contractAddresses :=
  ⟨by decide, claim_C10_readInRange ⟨["A"], 5⟩ (by decide)⟩

/-! ## TwitchClient (twitchAuth.ts)

The mutable credential state of a `TwitchClient` instance: `this.token`
(empty string when unset, as in the source), `this.userId` (empty string
when unset), `this.cfg.refreshToken`, and `this.cfg.botUserId`
(`undefined` modelled as `none`).  Each outbound `fetch` (and the
subsequent body read) is modelled by a `FetchOutcome` oracle value:
`throws` for a network/parse exception, `success ok body` for a response
with HTTP-success flag `ok` and parsed body `body`. -/

/-- Outcome of one `fetch` call together with reading its body. -/
inductive FetchOutcome (α : Type) where
  | throws
  | success (ok : Bool) (body : α)
deriving DecidableEq, Repr

/-- The fields of the token-endpoint response body (`OAuthResp`) that
the source reads. -/
structure OAuthResp where
  access_token : Option String
  refresh_token : Option String
deriving DecidableEq, Repr

/-- The field of the introspection response body (`ValidateResp`) that
the source reads. -/
structure ValidateResp where
  user_id : String
deriving DecidableEq, Repr

/-- Mutable state of a `TwitchClient` relevant to the claims. -/
structure ClientState where
  token : String
  userId : String
  cfgRefreshToken : String
  cfgBotUserId : Option String
deriving DecidableEq, Repr

/-- Result of one (possibly throwing) method call: the client state
after the call, the number of `persistTokens` invocations it performed,
the number of outbound network calls it performed, and whether it
propagated an exception.  (`persistTokens` itself catches all of its
errors, so invoking it never throws.) -/
structure StepOut where
  state : ClientState
  persists : Nat
  netCalls : Nat
  threw : Bool
deriving DecidableEq, Repr

/-- `TwitchClient.refreshToken`: POST to the token endpoint; on a
non-success response or a missing (JavaScript-falsy) `access_token`, an
error is thrown before any state mutation; otherwise the access token —
and, when present and non-empty, the refresh token — are replaced and
`persistTokens` is invoked once.  A fetch/body exception is caught,
logged and rethrown with no state change. -/
def refreshToken (s : ClientState) (o : FetchOutcome OAuthResp) : StepOut :=
  match o with
  | .throws => ⟨s, 0, 1, true⟩
  | .success ok j =>
    match j.access_token with
    | none => ⟨s, 0, 1, true⟩
    | some tok =>
      if ok = false ∨ tok = "" then ⟨s, 0, 1, true⟩
      else
        let s1 := { s with token := tok }
        let s2 :=
          match j.refresh_token with
          | some rt => if rt = "" then s1 else { s1 with cfgRefreshToken := rt }
          | none => s1
        ⟨s2, 1, 1, false⟩

/-- Oracle values for the fetches `TwitchClient.validateToken` can
perform: the inline refresh when no token is set, the first
introspection request, the refresh after a failed introspection, and the
second introspection request. -/
structure ValidateEnv where
  refresh : FetchOutcome OAuthResp
  val1 : FetchOutcome ValidateResp
  refresh2 : FetchOutcome OAuthResp
  val2 : FetchOutcome ValidateResp
deriving DecidableEq, Repr

/-- `TwitchClient.validateToken`: when no token is set, first run
`refreshToken` (outside the try block — its exception propagates).  Then
query the introspection endpoint; on a non-success response, refresh and
re-validate once, throwing if the second attempt also fails.  On
success, `this.userId` is set from the response, and if it differs from
`this.cfg.botUserId` (including first-time population), the identifier
is stored and `persistTokens` is invoked once. -/
def validateToken (s : ClientState) (env : ValidateEnv) : StepOut :=
  let pre : StepOut :=
    if s.token = "" then refreshToken s env.refresh else ⟨s, 0, 0, false⟩
  if pre.threw then pre
  else
    let core : StepOut :=
      match env.val1 with
      | .throws => ⟨pre.state, pre.persists, pre.netCalls + 1, true⟩
      | .success ok1 d1 =>
        if ok1 then
          ⟨{ pre.state with userId := d1.user_id }, pre.persists, pre.netCalls + 1, false⟩
        else
          let r2 := refreshToken pre.state env.refresh2
          if r2.threw then
            ⟨r2.state, pre.persists + r2.persists, pre.netCalls + 1 + r2.netCalls, true⟩
          else
            match env.val2 with
            | .throws =>
              ⟨r2.state, pre.persists + r2.persists, pre.netCalls + 2 + r2.netCalls, true⟩
            | .success ok2 d2 =>
              if ok2 = false then
                ⟨r2.state, pre.persists + r2.persists, pre.netCalls + 2 + r2.netCalls, true⟩
              else
                ⟨{ r2.state with userId := d2.user_id }, pre.persists + r2.persists,
                  pre.netCalls + 2 + r2.netCalls, false⟩
    if core.threw then core
    else if core.state.cfgBotUserId = some core.state.userId then core
    else
      ⟨{ core.state with cfgBotUserId := some core.state.userId }, core.persists + 1,
        core.netCalls, false⟩

/-- Oracle values for `TwitchClient.sendMessage`: the oracles of the
inline validation (used only when the own-user identifier is unset) and
the outcome of the chat-message POST. -/
structure SendEnv where
  venv : ValidateEnv
  send : FetchOutcome Unit
deriving DecidableEq, Repr

/-- `TwitchClient.sendMessage`: when `this.userId` is unset, run
`validateToken` inline — this call is not wrapped in a try block, so a
validation exception propagates out of `sendMessage`; if the identifier
is still unset afterwards, return without sending.  The chat-message
POST itself is inside a try block: whatever its outcome (non-success
status or exception), it is logged and `sendMessage` returns normally
without further effect. -/
def sendMessage (s : ClientState) (env : SendEnv) : StepOut :=
  let pre : StepOut :=
    if s.userId = "" then validateToken s env.venv else ⟨s, 0, 0, false⟩
  if pre.threw then pre
  else if pre.state.userId = "" then pre
  else
    match env.send with
    | .throws => ⟨pre.state, pre.persists, pre.netCalls + 1, false⟩
    | .success _ _ => ⟨pre.state, pre.persists, pre.netCalls + 1, false⟩

/-! ### Claim theorems for the credential manager -/

/-- Claim C6: when the token-endpoint response is non-success or lacks a
(JavaScript-truthy) access token, `refreshToken` throws, the in-memory
access token and refresh token keep their previous values, no
persistence write occurs, and exactly the one network call was made. -/
theorem claim_C6_refreshFailureNoEffect (s : ClientState) (ok : Bool) (j : OAuthResp)
    (h : ok = false ∨ j.access_token = none ∨ j.access_token = some "") :
    refreshToken s (.success ok j) = ⟨s, 0, 1, true⟩ := by
  obtain ⟨a, r⟩ := j
  cases a with
  | none => simp [refreshToken]
  | some tok =>
    rcases h with h | h | h
    · simp [refreshToken, h]
    · simp at h
    · simp only [OAuthResp.access_token] at h
      injection h with h
      simp [refreshToken, h]

/-- Claim C6 witness: a non-success token-endpoint response carrying an
access token still fails the refresh and leaves the state untouched. -/
theorem claim_C6_witness :
    ((false : Bool) = false ∨ (OAuthResp.mk (some "x") none).access_token = none ∨
      (OAuthResp.mk (some "x") none).access_token = some "") ∧
    refreshToken ⟨"old", "u", "r", none⟩ (.success false ⟨some "x", none⟩) =
      ⟨⟨"old", "u", "r", none⟩, 0, 1, true⟩ :=
  ⟨Or.inl rfl,
    claim_C6_refreshFailureNoEffect ⟨"old", "u", "r", none⟩ false ⟨some "x", none⟩ (Or.inl rfl)⟩

/-- Concrete client state for the C7 counterexample: no access token in
memory, stored own-user identifier `"u"`. -/
def c7cexState : ClientState := ⟨"", "u0", "r", some "u"⟩

/-- Oracles for the C7 counterexample: the inline refresh succeeds, and
the first introspection request succeeds returning the already-stored
identifier `"u"`. -/
def c7cexEnv : ValidateEnv :=
  ⟨.success true ⟨some "t", some "r2"⟩, .success true ⟨"u"⟩, .throws, .throws⟩

/-- Claim C7 counterexample: a validation call that succeeds on its
first introspection request and whose returned identifier matches the
stored value, yet performs one persistence write — because the access
token was unset at entry, the inline `refreshToken` ran first and
persisted.  The claim as stated ("a match triggers no persistence
write") is therefore false for this call. -/
theorem claim_C7_counterexample :
    c7cexEnv.val1 = .success true ⟨"u"⟩ ∧
    c7cexState.cfgBotUserId = some "u" ∧
    (validateToken c7cexState c7cexEnv).threw = false ∧
    (validateToken c7cexState c7cexEnv).persists = 1 := by
  refine ⟨rfl, rfl, ?_, ?_⟩ <;> decide

/-- Claim C7 (amended): for every validation call whose access token is
non-empty at entry (so no inline refresh runs) and that succeeds on its
first introspection request, a mismatch between the returned identifier
and the stored one (including first-time population) triggers exactly
one persistence write, and a match triggers none; the call returns
normally. -/
theorem claim_C7_validationPersistWrites (s : ClientState) (env : ValidateEnv)
    (d : ValidateResp) (htok : s.token ≠ "") (hval : env.val1 = .success true d) :
    (validateToken s env).threw = false ∧
    (validateToken s env).persists = (if s.cfgBotUserId = some d.user_id then 0 else 1) := by
  have hs : (if s.token = "" then refreshToken s env.refresh else (⟨s, 0, 0, false⟩ : StepOut))
      = ⟨s, 0, 0, false⟩ := by simp [htok]
  unfold validateToken
  rw [hs, hval]
  by_cases hbu : s.cfgBotUserId = some d.user_id <;> simp [hbu]

/-- Claim C7 witness: first-time population (no stored identifier) with
a successful first introspection triggers exactly one write. -/
theorem claim_C7_witness :
    (ClientState.mk "t" "" "r" none).token ≠ "" ∧
    (validateToken ⟨"t", "", "r", none⟩
        ⟨.throws, .success true ⟨"u9"⟩, .throws, .throws⟩).threw = false ∧
    (validateToken ⟨"t", "", "r", none⟩
        ⟨.throws, .success true ⟨"u9"⟩, .throws, .throws⟩).persists =
      (if (ClientState.mk "t" "" "r" none).cfgBotUserId = some "u9" then 0 else 1) := by
  have h := claim_C7_validationPersistWrites ⟨"t", "", "r", none⟩
    ⟨.throws, .success true ⟨"u9"⟩, .throws, .throws⟩ ⟨"u9"⟩ (by decide) rfl
  exact ⟨by decide, h.1, h.2⟩

/-- Concrete state for the C1 counterexample: own-user identifier unset,
access token present. -/
def c1cexState : ClientState := ⟨"t", "", "r", none⟩

/-- Oracles for the C1 counterexample: the inline validation's first
introspection fetch throws (a network error). -/
def c1cexEnv : SendEnv := ⟨⟨.throws, .throws, .throws, .throws⟩, .success true ()⟩

/-- Claim C1 counterexample: with the own-user identifier unset,
`sendMessage` runs `validateToken` inline *outside* any try block; when
that validation throws, the exception propagates out of `sendMessage` —
so the claim "the call never raises in every state" is false. -/
theorem claim_C1_counterexample :
    c1cexState.userId = "" ∧ (sendMessage c1cexState c1cexEnv).threw = true := by
  refine ⟨rfl, ?_⟩
  decide

/-- Claim C1 (amended): when the own-user identifier is already set at
entry, `sendMessage` never raises, performs exactly one outbound network
call, changes no state and triggers no persistence write, whatever the
outcome of that call (non-success status or exception) — failures are
only logged.  When the identifier is unset, the inline validation runs
un-guarded and its exception propagates out of `sendMessage` unchanged. -/
theorem claim_C1_sendMessageNoThrow (s : ClientState) (env : SendEnv) :
    (s.userId ≠ "" → sendMessage s env = ⟨s, 0, 1, false⟩) ∧
    (s.userId = "" → (validateToken s env.venv).threw = true →
      sendMessage s env = validateToken s env.venv) := by
  constructor
  · intro h
    unfold sendMessage
    simp only [h, if_neg, if_false]
    cases henv : env.send <;> simp [h]
  · intro h hv
    unfold sendMessage
    simp [h, hv]

/-- Claim C1 witness: identifier set, the chat POST throws a network
error — `sendMessage` still returns normally after its single call. -/
theorem claim_C1_witness :
    (ClientState.mk "t" "uid" "r" (some "uid")).userId ≠ "" ∧
    sendMessage ⟨"t", "uid", "r", some "uid"⟩
        ⟨⟨.throws, .throws, .throws, .throws⟩, .throws⟩ =
      ⟨⟨"t", "uid", "r", some "uid"⟩, 0, 1, false⟩ :=
  ⟨by decide,
    (claim_C1_sendMessageNoThrow ⟨"t", "uid", "r", some "uid"⟩
      ⟨⟨.throws, .throws, .throws, .throws⟩, .throws⟩).1 (by decide)⟩

/-! ## The scheduling loop (index.ts, `questionLoop`)

One cycle of `questionLoop` is embedded as a function of the alternation
flag `useDexScreenerNext`, the token-store state, and oracle values for
the collaborator calls.  Each fallible collaborator call is an `Except`
so that an injected exception can be modelled; an `Except.error` at any
point transfers control to the cycle's `catch`, carrying the flag and
store values mutated so far.  The `finally` clause re-arms the loop via
`setImmediate`, recorded in the `rescheduled` field. -/

/-- The `TokenIdentifierType` union from questionService.ts. -/
inductive TokenIdentifierType where
  | ticker
  | address
deriving DecidableEq, Repr

/-- The `tokenInfo` record built by the loop. -/
structure TokenInfo where
  identifier : String
  idType : TokenIdentifierType
deriving DecidableEq, Repr

/-- Which identifier source a cycle consulted first. -/
inductive SourceTag where
  | dexStore
  | coinGecko
deriving DecidableEq, Repr

/-- Oracles for one cycle's collaborator calls.  `refreshA` is the
result of `getTopBoostedDexScreenerAddresses` inside
`refreshDexScreenerTokens`; `cg` is `getTrendingCoinGeckoSymbols`;
`cgPick` seeds the random index into the symbol list; `question` is
`questionService.getFormattedQuestion`; `send` is the selected bot's
`sendMessage`; `botsLen` is `bots.length`.  An `Except.error` models an
injected exception escaping that call. -/
structure CycleEnv where
  refreshA : Except Unit (List String)
  cg : Except Unit (List String)
  cgPick : Nat
  question : Option TokenInfo → Except Unit (Option String)
  send : String → Except Unit Unit
  botsLen : Nat

/-- Result of the token-source selection (index.ts lines 104–139):
which source was consulted first, and either the store state plus the
selected `tokenInfo`, or — when a collaborator threw — the store state
at the point of the exception. -/
structure SelectOut where
  firstSource : SourceTag
  result : Except TokenStore (TokenStore × Option TokenInfo)

/-- The pre-fetched-store read of `questionLoop` (index.ts lines
105–110): read the store round-robin; when the read yields nothing and
the store is below `MIN_STORE_THRESHOLD`, run `refreshDexScreenerTokens`
once (adding the fetched addresses unless the fetch came back empty) and
retry the read once.  An exception from the refill propagates, carrying
the store state at the throw point. -/
def dexRead (store : TokenStore) (refreshA : Except Unit (List String)) :
    Except TokenStore (TokenStore × Option String) :=
  match getNextContractAddress store with
  | (some a, st1) => .ok (st1, some a)
  | (none, st1) =>
    if st1.contractAddresses.length < MIN_STORE_THRESHOLD then
      match refreshA with
      | .error _ => .error st1
      | .ok newAddresses =>
        match getNextContractAddress
            (if newAddresses.isEmpty then st1
             else { st1 with contractAddresses :=
                      addContractAddresses st1.contractAddresses newAddresses }) with
        | (a2, st2) => .ok (st2, a2)
    else .ok (st1, none)

/-- The CoinGecko pick used by both paths of `questionLoop`: fetch the
trending symbols and pick one at random (the random draw is seeded by
`cgPick`, reduced into range); an empty list yields no token. -/
def cgSelect (cg : Except Unit (List String)) (cgPick : Nat) :
    Except Unit (Option TokenInfo) :=
  match cg with
  | .error e => .error e
  | .ok cgSymbols =>
    if 0 < cgSymbols.length then
      .ok (some ⟨cgSymbols.getD (cgPick % cgSymbols.length) "", .ticker⟩)
    else .ok none

/-- The `useDexScreenerNext = true` branch of the source selection:
store read (with one refill retry) first, CoinGecko fallback when the
store yields nothing. -/
def selectDexFirst (store : TokenStore) (env : CycleEnv) :
    Except TokenStore (TokenStore × Option TokenInfo) :=
  match dexRead store env.refreshA with
  | .error st => .error st
  | .ok (st, some a) => .ok (st, some ⟨a, .address⟩)
  | .ok (st, none) =>
    match cgSelect env.cg env.cgPick with
    | .error _ => .error st
    | .ok tokenInfo => .ok (st, tokenInfo)

/-- The `useDexScreenerNext = false` branch of the source selection:
CoinGecko first, one store read as fallback when it yields nothing. -/
def selectCgFirst (store : TokenStore) (env : CycleEnv) :
    Except TokenStore (TokenStore × Option TokenInfo) :=
  match cgSelect env.cg env.cgPick with
  | .error _ => .error store
  | .ok (some tokenInfo) => .ok (store, some tokenInfo)
  | .ok none =>
    match getNextContractAddress store with
    | (some a, st1) => .ok (st1, some ⟨a, .address⟩)
    | (none, st1) => .ok (st1, none)

/-- The source-selection block of `questionLoop` (index.ts lines
104–139), dispatching on the alternation flag. -/
def selectToken (useDexScreenerNext : Bool) (store : TokenStore) (env : CycleEnv) :
    SelectOut :=
  if useDexScreenerNext then ⟨.dexStore, selectDexFirst store env⟩
  else ⟨.coinGecko, selectCgFirst store env⟩

/-- The try-block body of one `questionLoop` cycle: select a token
source, toggle the alternation flag (the toggle sits *after* source
selection and *before* rendering), render a question, and post it when
one was rendered and a bot is available.  An `Except.error` is an
exception escaping the body, carrying the flag and store values mutated
up to the throw point. -/
def questionLoopBody (useDexScreenerNext : Bool) (store : TokenStore) (env : CycleEnv) :
    Except (Bool × TokenStore) (Bool × TokenStore × Option String) :=
  match (selectToken useDexScreenerNext store env).result with
  | .error st => .error (useDexScreenerNext, st)
  | .ok (st, tokenInfo) =>
    let flag2 := !useDexScreenerNext
    match env.question tokenInfo with
    | .error _ => .error (flag2, st)
    | .ok question =>
      match question with
      | some q =>
        if 0 < env.botsLen then
          match env.send q with
          | .error _ => .error (flag2, st)
          | .ok _ => .ok (flag2, st, some q)
        else .ok (flag2, st, none)
      | none => .ok (flag2, st, none)

/-- Observable result of one `questionLoop` cycle. -/
structure CycleOut where
  useDexScreenerNext : Bool
  store : TokenStore
  sent : Option String
  threw : Bool
  rescheduled : Bool
  firstSource : SourceTag

/-- One full cycle of `questionLoop`: run the try-block body; an
exception anywhere in it is caught and logged (`threw := true`); the
`finally` clause *unconditionally* re-arms the next cycle via
`setImmediate`, recorded as `rescheduled := true` on both paths. -/
def questionLoopCycle (useDexScreenerNext : Bool) (store : TokenStore) (env : CycleEnv) :
    CycleOut :=
  match questionLoopBody useDexScreenerNext store env with
  | .error (f, st) =>
    ⟨f, st, none, true, true, (selectToken useDexScreenerNext store env).firstSource⟩
  | .ok (f, st, sent) =>
    ⟨f, st, sent, false, true, (selectToken useDexScreenerNext store env).firstSource⟩

/-! ## Startup interval validation (index.ts, `main`) -/

/-- Outcome of the startup interval check: either `process.exit(1)`
before any loop is armed, or a running configuration. -/
inductive StartupOutcome where
  | exited
  | running (deltaTMinMinutes deltaTMaxMinutes : Int)
deriving DecidableEq, Repr

/-- The interval-bound check of `main` (index.ts lines 53–59).  The
arguments are the results of `parseInt` on the two environment values
(with their defaults); `none` models `NaN` (an unparsable value).  The
check `isNaN(min) || isNaN(max) || min <= 0 || max <= min` exits the
process; otherwise startup proceeds with the parsed bounds. -/
def mainIntervalCheck (minParsed maxParsed : Option Int) : StartupOutcome :=
  match minParsed, maxParsed with
  | some deltaTMinMinutes, some deltaTMaxMinutes =>
    if deltaTMinMinutes ≤ 0 ∨ deltaTMaxMinutes ≤ deltaTMinMinutes then .exited
    else .running deltaTMinMinutes deltaTMaxMinutes
  | _, _ => .exited

/-- Whether `main` went on to arm `questionLoop` (it does so only after
the interval check passed; `process.exit(1)` runs no cycle). -/
def questionLoopArmed : StartupOutcome → Bool
  | .exited => false
  | .running _ _ => true

/-! ### Scheduling lemmas -/

theorem selectToken_firstSource (useDexScreenerNext : Bool) (store : TokenStore)
    (env : CycleEnv) :
    (selectToken useDexScreenerNext store env).firstSource =
      (if useDexScreenerNext then SourceTag.dexStore else SourceTag.coinGecko) := by
  cases useDexScreenerNext <;> rfl

theorem cgSelect_ok (cgSymbols : List String) (cgPick : Nat) :
    ∃ tokenInfo, cgSelect (.ok cgSymbols) cgPick = .ok tokenInfo := by
  by_cases h : 0 < cgSymbols.length
  · exact ⟨some ⟨cgSymbols.getD (cgPick % cgSymbols.length) "", .ticker⟩,
      by simp [cgSelect, h]⟩
  · exact ⟨none, by simp [cgSelect, h]⟩

theorem dexRead_ok (store : TokenStore) (refreshA : Except Unit (List String))
    (ra : List String) (hra : refreshA = .ok ra) :
    ∃ p, dexRead store refreshA = .ok p := by
  unfold dexRead
  split
  · exact ⟨_, rfl⟩
  · split
    · rw [hra]
      exact ⟨_, rfl⟩
    · exact ⟨_, rfl⟩

/-- With both collaborator fetches succeeding, the source selection
never throws, whichever source is consulted first. -/
theorem selectToken_ok (useDexScreenerNext : Bool) (store : TokenStore) (env : CycleEnv)
    (ra cgSymbols : List String)
    (hra : env.refreshA = .ok ra) (hcg : env.cg = .ok cgSymbols) :
    ∃ p, (selectToken useDexScreenerNext store env).result = .ok p := by
  obtain ⟨ti, hti⟩ := cgSelect_ok cgSymbols env.cgPick
  cases useDexScreenerNext
  · show ∃ p, selectCgFirst store env = .ok p
    unfold selectCgFirst
    rw [hcg, hti]
    rcases ti with _ | t
    · rcases hg : getNextContractAddress store with ⟨a1, st1⟩
      rcases a1 with _ | a
      · exact ⟨_, rfl⟩
      · exact ⟨_, rfl⟩
    · exact ⟨_, rfl⟩
  · show ∃ p, selectDexFirst store env = .ok p
    unfold selectDexFirst
    obtain ⟨q, hq⟩ := dexRead_ok store env.refreshA ra hra
    rw [hq]
    rcases q with ⟨st, _ | a⟩
    · rw [hcg, hti]
      exact ⟨_, rfl⟩
    · exact ⟨_, rfl⟩

/-- Once the source selection has completed normally, the cycle's
resulting flag is the toggled flag on every subsequent path (rendering
or send may still throw — the toggle already happened). -/
theorem questionLoopCycle_flag_of_sel_ok (useDexScreenerNext : Bool) (store : TokenStore)
    (env : CycleEnv) (st : TokenStore) (tokenInfo : Option TokenInfo)
    (hok : (selectToken useDexScreenerNext store env).result = .ok (st, tokenInfo)) :
    (questionLoopCycle useDexScreenerNext store env).useDexScreenerNext =
      !useDexScreenerNext := by
  unfold questionLoopCycle questionLoopBody
  rw [hok]
  dsimp only
  rcases hq : env.question tokenInfo with e | q
  · rfl
  · rcases q with _ | q
    · rfl
    · dsimp only
      by_cases hb : 0 < env.botsLen
      · rw [if_pos hb]
        rcases hs : env.send q with e | u
        · rfl
        · rfl
      · rw [if_neg hb]

/-! ### Claim theorems for the scheduling loop and startup -/

/-- Claim C2: whatever the flag, the store state, and the outcomes of
the collaborator calls — source selection, refill, rendering, sending,
including an injected exception escaping the cycle body — every cycle
re-arms the next one: the `setImmediate` in the `finally` clause runs on
every path, so no failure inside a cycle terminates the loop. -/
theorem claim_C2_alwaysReschedules (useDexScreenerNext : Bool) (store : TokenStore)
    (env : CycleEnv) :
    (questionLoopCycle useDexScreenerNext store env).rescheduled = true := by
  unfold questionLoopCycle
  rcases questionLoopBody useDexScreenerNext store env with ⟨f, st⟩ | ⟨f, st, sent⟩ <;> rfl

/-- Oracles for the C8 counterexample: `getTrendingCoinGeckoSymbols`
throws an injected exception; everything else is benign. -/
def c8cexEnv : CycleEnv :=
  ⟨.ok [], .error (), 0, fun _ => .ok none, fun _ => .ok (), 1⟩

/-- Claim C8 counterexample: the toggle of `useDexScreenerNext` sits
*inside* the try block, after source selection — with the flag false, an
exception thrown by the CoinGecko call aborts the cycle before the
toggle, so a cycle with an exceptional outcome ends with the flag
unchanged, contradicting "toggled exactly once by the end of the cycle
regardless of that cycle's outcome (… or exception)". -/
theorem claim_C8_counterexample :
    (questionLoopCycle false ⟨[], 0⟩ c8cexEnv).threw = true ∧
    (questionLoopCycle false ⟨[], 0⟩ c8cexEnv).useDexScreenerNext = false := by
  constructor <;> rfl

/-- Claim C8 (amended): every cycle whose source selection completes
without an exception toggles the alternation flag exactly once — the
toggle precedes rendering and sending, so source exhaustion, rendering
failure and send failure (including exceptions there) never prevent it;
a cycle aborted by an exception before or during source selection leaves
the flag unchanged.  Independently of any outcome, a cycle with the flag
clear consults the on-demand CoinGecko source first and a cycle with the
flag set consults the pre-fetched store first — so two consecutive
exception-free cycles starting with the flag clear use on-demand-fetch
first, then the pre-fetched store first. -/
theorem claim_C8_alternationToggle (useDexScreenerNext : Bool) (store : TokenStore)
    (env : CycleEnv) :
    (questionLoopCycle useDexScreenerNext store env).firstSource =
      (if useDexScreenerNext then SourceTag.dexStore else SourceTag.coinGecko) ∧
    ((∃ v, env.refreshA = .ok v) → (∃ v, env.cg = .ok v) →
      (questionLoopCycle useDexScreenerNext store env).useDexScreenerNext =
        !useDexScreenerNext) := by
  constructor
  · unfold questionLoopCycle
    rcases questionLoopBody useDexScreenerNext store env with ⟨f, st⟩ | ⟨f, st, sent⟩ <;>
      simpa using selectToken_firstSource useDexScreenerNext store env
  · rintro ⟨ra, hra⟩ ⟨cgSymbols, hcg⟩
    obtain ⟨⟨st, tokenInfo⟩, hok⟩ :=
      selectToken_ok useDexScreenerNext store env ra cgSymbols hra hcg
    exact questionLoopCycle_flag_of_sel_ok useDexScreenerNext store env st tokenInfo hok

/-- Claim C8 witness: an exception-free cycle with the flag clear
consults CoinGecko first and ends with the flag set. -/
theorem claim_C8_witness :
    (∃ v, (CycleEnv.mk (.ok []) (.ok ["BTC"]) 0 (fun _ => .ok none) (fun _ => .ok ()) 1).refreshA
        = .ok v) ∧
    (questionLoopCycle false ⟨[], 0⟩
        ⟨.ok [], .ok ["BTC"], 0, fun _ => .ok none, fun _ => .ok (), 1⟩).useDexScreenerNext
      = !false ∧
    (questionLoopCycle false ⟨[], 0⟩
        ⟨.ok [], .ok ["BTC"], 0, fun _ => .ok none, fun _ => .ok (), 1⟩).firstSource
      = (if false then SourceTag.dexStore else SourceTag.coinGecko) := by
  have h := claim_C8_alternationToggle false ⟨[], 0⟩
    ⟨.ok [], .ok ["BTC"], 0, fun _ => .ok none, fun _ => .ok (), 1⟩
  exact ⟨⟨[], rfl⟩, h.2 ⟨[], rfl⟩ ⟨["BTC"], rfl⟩, h.1⟩

/-- Claim C9: the startup interval check exits the process exactly when
the bounds are invalid — an unparsable value (`NaN`), a minimum not
strictly positive, or a maximum not strictly greater than the minimum —
and when it exits, `questionLoop` is never armed, so no scheduling cycle
runs.  The check is performed by the single straight-line prologue of
`main`, before any timer or loop is created. -/
theorem claim_C9_intervalGuard (minParsed maxParsed : Option Int) :
    (mainIntervalCheck minParsed maxParsed = .exited ↔
      ¬ ∃ mn mx : Int, minParsed = some mn ∧ maxParsed = some mx ∧ 0 < mn ∧ mn < mx) ∧
    (mainIntervalCheck minParsed maxParsed = .exited →
      questionLoopArmed (mainIntervalCheck minParsed maxParsed) = false) := by
  refine ⟨?_, fun h => by rw [h]; rfl⟩
  cases minParsed with
  | none => simp [mainIntervalCheck]
  | some mn =>
    cases maxParsed with
    | none => simp [mainIntervalCheck]
    | some mx =>
      by_cases h : mn ≤ 0 ∨ mx ≤ mn
      · have he : mainIntervalCheck (some mn) (some mx) = .exited := by
          unfold mainIntervalCheck
          dsimp only
          rw [if_pos h]
        rw [he]
        constructor
        · rintro - ⟨a, b, ha, hb2, hpos, hlt⟩
          injection ha with ha
          injection hb2 with hb2
          omega
        · intro _
          rfl
      · push_neg at h
        have hcond : ¬ (mn ≤ 0 ∨ mx ≤ mn) := by
          rintro (hc | hc) <;> omega
        have he : mainIntervalCheck (some mn) (some mx) = .running mn mx := by
          unfold mainIntervalCheck
          dsimp only
          rw [if_neg hcond]
        rw [he]
        constructor
        · intro hc
          exact StartupOutcome.noConfusion hc
        · intro hc
          exact absurd ⟨mn, mx, rfl, rfl, by omega, by omega⟩ hc

/-- Claim C9 witness: equal bounds violate the strict ordering, the
check exits, and no cycle is armed. -/
theorem claim_C9_witness :
    mainIntervalCheck (some 5) (some 5) = .exited ∧
    questionLoopArmed (mainIntervalCheck (some 5) (some 5)) = false := by
  have h := claim_C9_intervalGuard (some 5) (some 5)
  have he : mainIntervalCheck (some 5) (some 5) = .exited := by decide
  exact ⟨he, h.2 he⟩


end AIR3
